import Mathlib

/-!
Verification of the product-substitution assistant (`src/app.py`) against its
specification.  The graph is a `networkx.DiGraph` built by `load_kg`: nodes are
string ids with an attribute dictionary, and each ordered pair of nodes carries
at most one edge, whose `type` attribute is a string (defaulting to
`"RELATED"`).  Prices and scores are modelled as rationals; Python `None` is
modelled by `Option`; Python runtime exceptions are modelled by `Except PyErr`.
-/

deriving instance DecidableEq for Except

namespace Subst

/-- A runtime error raised by the Python code.  `typeError` models `TypeError`
(wrong call arity, or comparing `None` with a number), `attributeError` models
`AttributeError` (calling `.get` on a string).  `internalFuel` is the fuel-out
marker of the bounded BFS recursion; the actual loop always terminates within
the fuel that `find_alternatives` supplies. -/
inductive PyErr where
  | typeError
  | attributeError
  | internalFuel
deriving Repr, DecidableEq

/-- One directed edge of the `DiGraph`, with its `type` attribute (the
`"RELATED"` default of `load_kg` is already applied). -/
structure Edge where
  src : String
  tgt : String
  etype : String
deriving Repr, DecidableEq

/-- The node attributes that the program reads (`G.nodes[n].get(...)`), with
their defaults-when-absent.  `ptype` is the `"type"` attribute used by
`is_product`. -/
structure NodeProps where
  ptype : Option String := none
  price : Option ℚ := none
  brand : Option String := none
  in_stock : Bool := false
  tags : List String := []
  category : Option String := none
deriving Repr, DecidableEq

/-- A graph snapshot as built by `load_kg`: a node list with attributes and a
typed edge list ( `DiGraph`: one edge per ordered pair). -/
structure Graph where
  nodes : List (String × NodeProps)
  edges : List Edge
deriving Repr, DecidableEq

/-- Attribute dictionary of a node; a node that appears only as an edge
endpoint has an empty attribute dictionary. -/
def getProps (node : String) (G : Graph) : NodeProps :=
  match G.nodes.find? (fun p => p.1 == node) with
  | some p => p.2
  | none => {}

/-- `is_product(node, G)` — line 25. -/
def is_product (node : String) (G : Graph) : Bool :=
  (getProps node G).ptype == some "product"

/-- `get_price(node, G)` — line 28. -/
def get_price (node : String) (G : Graph) : Option ℚ :=
  (getProps node G).price

/-- `in_stock(node, G)` — line 31. -/
def in_stock (node : String) (G : Graph) : Bool :=
  (getProps node G).in_stock

/-- `get_brand(node, G)` — line 34. -/
def get_brand (node : String) (G : Graph) : Option String :=
  (getProps node G).brand

/-- `get_tags(node, G)` — line 37 (a Python set; subset and intersection
treat the list as a set). -/
def get_tags (node : String) (G : Graph) : List String :=
  (getProps node G).tags

/-- `get_category(node, G)` — line 40. -/
def get_category (node : String) (G : Graph) : Option String :=
  (getProps node G).category

/-- All node ids of the graph: explicitly added nodes plus edge endpoints
(`nx.add_edge` creates missing endpoints). -/
def nodeIds (G : Graph) : List String :=
  G.nodes.map Prod.fst ++ G.edges.flatMap (fun e => [e.src, e.tgt])

/-- `node in G` membership test. -/
def memG (node : String) (G : Graph) : Bool :=
  (nodeIds G).contains node

/-- `G.has_edge(a, b)`. -/
def has_edge (a b : String) (G : Graph) : Bool :=
  G.edges.any (fun e => e.src == a && e.tgt == b)

/-- Truthiness of an optional string (`if x:`): `None` and `""` are falsy. -/
def pyTruthy : Option String → Bool
  | none => false
  | some s => s != ""

/-- Keep the elements not already in `seen`, in order, recording each kept
element. -/
def firstDedupAux (seen : List String) : List String → List String
  | [] => []
  | x :: xs =>
    if seen.contains x then firstDedupAux seen xs
    else x :: firstDedupAux (seen ++ [x]) xs

/-- Keep the first occurrence of each element (the iteration order of a
`dict`/`set` built by first insertion; also used for `set(required_tags)`). -/
def firstDedup (l : List String) : List String := firstDedupAux [] l

/-- `list(G.successors(node))`: distinct edge targets in first-insertion
order. -/
def successors (node : String) (G : Graph) : List String :=
  firstDedup ((G.edges.filter (fun e => e.src == node)).map Edge.tgt)

/-- `list(G.predecessors(node))`. -/
def predecessors (node : String) (G : Graph) : List String :=
  firstDedup ((G.edges.filter (fun e => e.tgt == node)).map Edge.src)

/-- `categories_are_similar(G, cat_a, cat_b)` — lines 160-174.  When an edge
exists between the two (distinct, truthy) categories, the source iterates
`G.get_edge_data(cat_a, cat_b).values()`.  On the `DiGraph` built by
`load_kg` those values are the attribute values themselves — here the type
string — so `e.get("type")` is `.get` on a `str` and raises
`AttributeError`. -/
def categories_are_similar (G : Graph) (cat_a cat_b : Option String) :
    Except PyErr Bool :=
  match cat_a, cat_b with
  | some a, some b =>
    if a == "" || b == "" then .ok false
    else if a == b then .ok true
    else if has_edge a b G then .error .attributeError
    else if has_edge b a G then .error .attributeError
    else .ok false
  | _, _ => .ok false

/-- Rule 1 (category), lines 105-115: `+3.0`/`same_category` on a shared
truthy category, else `+1.5`/`related_category` when
`categories_are_similar` holds (which may raise). -/
def categoryStep (G : Graph) (requested candidate : String) :
    Except PyErr (ℚ × List String) :=
  let req_cat := get_category requested G
  let cand_cat := get_category candidate G
  if pyTruthy req_cat && pyTruthy cand_cat && req_cat == cand_cat then
    .ok (3, ["same_category"])
  else
    match categories_are_similar G req_cat cand_cat with
    | .error e => .error e
    | .ok true => .ok (3/2, ["related_category"])
    | .ok false => .ok (0, [])

/-- Rule 2 (brand), lines 117-128.  `if optional_brand:` is a truthiness
test; with no brand preference, `None == None` makes two absent brands
compare equal. -/
def brandStep (G : Graph) (requested candidate : String)
    (optional_brand : Option String) : ℚ × List String :=
  if pyTruthy optional_brand then
    if get_brand candidate G == optional_brand then (1, ["brand_match"])
    else (0, ["different_brand"])
  else
    if get_brand candidate G == get_brand requested G then (1/2, ["same_brand"])
    else (0, [])

/-- Insert a string into a sorted list (code-point order, as Python
`sorted`). -/
def insertSorted (s : String) : List String → List String
  | [] => [s]
  | x :: xs => if s ≤ x then s :: x :: xs else x :: insertSorted s xs

/-- Sort strings ascending (`sorted(missing)`). -/
def sortStrings : List String → List String
  | [] => []
  | x :: xs => insertSorted x (sortStrings xs)

/-- Rule 3 (tags), lines 130-141: only fires when `required_tags` is
non-empty; full coverage gives `+2.0`, otherwise `+0.5` per matched tag and
a `missing_tags:` reason listing the sorted missing tags. -/
def tagStep (G : Graph) (candidate : String) (required_tags : List String) :
    ℚ × List String :=
  let cand_tags := get_tags candidate G
  let matched := required_tags.filter (fun t => cand_tags.contains t)
  if required_tags.isEmpty then (0, [])
  else if required_tags.all (fun t => cand_tags.contains t) then
    (2, ["all_required_tags_matched"])
  else
    let missing := required_tags.filter (fun t => !(cand_tags.contains t))
    ((1/2) * (matched.length : ℚ),
      [String.append "missing_tags:" (String.intercalate "," (sortStrings missing))])

/-- Python `max(a, b)`. -/
def pyMax (a b : ℚ) : ℚ := if a ≤ b then b else a

/-- Rule 4 (price), lines 143-156: both prices must be present; cheaper or
equal gives `+1.0`, otherwise the penalty
`-0.5 * (cand - req) / max 1 req`.  The accessors and the guarded
arithmetic inside the `try` block cannot raise, so the `except: pass` is
dead. -/
def priceStep (G : Graph) (requested candidate : String) : ℚ × List String :=
  match get_price requested G, get_price candidate G with
  | some rp, some cp =>
    if cp ≤ rp then (1, ["cheaper_or_equal_price"])
    else (-((1/2) * ((cp - rp) / pyMax 1 rp)), ["more_expensive"])
  | _, _ => (0, [])

/-- `score_candidate(G, requested, candidate, required_tags, optional_brand)`
— lines 101-158: the four rules in fixed order, score accumulated
additively, reasons appended in rule order.  The category rule can raise
(see `categories_are_similar`), aborting the call. -/
def score_candidate (G : Graph) (requested candidate : String)
    (required_tags : List String) (optional_brand : Option String) :
    Except PyErr (ℚ × List String) :=
  match categoryStep G requested candidate with
  | .error e => .error e
  | .ok (s1, r1) =>
    let (s2, r2) := brandStep G requested candidate optional_brand
    let (s3, r3) := tagStep G candidate required_tags
    let (s4, r4) := priceStep G requested candidate
    .ok (s1 + s2 + s3 + s4, r1 ++ r2 ++ r3 ++ r4)

/-- A scored candidate record (`{"product": ..., "score": ..., "reasons": ...,
"path": ...}` of line 88). -/
structure Candidate where
  product : String
  score : ℚ
  reasons : List String
  path : List String
deriving Repr, DecidableEq

/-- An entry of the BFS deque: `(node, dist, path)` — line 64. -/
structure QItem where
  node : String
  dist : Nat
  path : List String
deriving Repr, DecidableEq

/-- The result dictionary of `find_alternatives`: the not-found error value
`{"error": "Requested product not found in KG."}` (a returned value, not a
raised exception), the exact-match dictionary, or the alternatives list. -/
inductive QResult where
  | errorNotFound
  | exactMatch (productId : String)
  | alternatives (items : List Candidate)
deriving Repr, DecidableEq

/-- The neighbor list of the undirected traversal:
`list(G.successors(node)) + list(G.predecessors(node))` — line 70. -/
def neighborsOf (node : String) (G : Graph) : List String :=
  successors node G ++ predecessors node G

/-- The nodes within `k` undirected hops of `s`: the `k`-fold neighbor
closure of `{s}`.  A node is at hop-distance at most `k` from `s` exactly
when it belongs to `within G s k`. -/
def within (G : Graph) (s : String) : Nat → List String
  | 0 => [s]
  | k + 1 =>
    let w := within G s k
    firstDedup (w ++ w.flatMap (fun n => neighborsOf n G))

/-- The inner `for nbr in neighbors` loop of lines 71-91.  Already-visited
neighbors are skipped; a fresh neighbor is added to `visited`; when the
fresh neighbor is a product other than the requested node, line 79 executes
`in_stock(nbr)` — a call that passes one argument to the two-parameter
`in_stock(node, G)` and therefore raises `TypeError`, aborting the whole
query (the candidate filtering and scoring of lines 80-88 are unreachable).
Otherwise the neighbor is enqueued when its depth stays within 4.  `acc`
accumulates the items appended to the deque during this pass and `enq`
records every `(node, dist)` ever appended to the deque. -/
def processNbrs (G : Graph) (req : String) (dist : Nat) (path : List String) :
    List String → List String → List QItem → List (String × Nat) →
    Except PyErr (List String × List QItem × List (String × Nat))
  | [], visited, acc, enq => .ok (visited, acc, enq)
  | nbr :: rest, visited, acc, enq =>
    if visited.contains nbr then processNbrs G req dist path rest visited acc enq
    else
      if is_product nbr G && nbr != req then .error .typeError
      else if dist + 1 ≤ 4 then
        processNbrs G req dist path rest (visited ++ [nbr])
          (acc ++ [⟨nbr, dist + 1, path ++ [nbr]⟩]) (enq ++ [(nbr, dist + 1)])
      else processNbrs G req dist path rest (visited ++ [nbr]) acc enq

/-- The `while queue` loop of lines 67-91, with `fuel` bounding the number of
iterations (`find_alternatives` passes fuel exceeding the number of graph
nodes, which is more than the loop can ever use, so `internalFuel` is never
reached).  Returns the final visited set and the log of deque appends. -/
def bfsLoop (G : Graph) (req : String) :
    Nat → List QItem → List String → List (String × Nat) →
    Except PyErr (List String × List (String × Nat))
  | _, [], visited, enq => .ok (visited, enq)
  | 0, _ :: _, _, _ => .error .internalFuel
  | fuel + 1, item :: rest, visited, enq =>
    match processNbrs G req item.dist item.path (neighborsOf item.node G) visited [] enq with
    | .error e => .error e
    | .ok (visited', newItems, enq') => bfsLoop G req fuel (rest ++ newItems) visited' enq'

/-- Comparison of the price components of the sort key.  Python would raise
comparing `None` with a number, but the candidate list being sorted is
always empty (see `bfsPhase`), so no comparison is ever evaluated. -/
def priceLe : Option ℚ → Option ℚ → Bool
  | none, _ => true
  | some _, none => false
  | some a, some b => a ≤ b

/-- The sort key order of line 94: `(-score, price)` lexicographically, i.e.
higher score first, then cheaper first. -/
def candLe (G : Graph) (a b : Candidate) : Bool :=
  if a.score == b.score then priceLe (get_price a.product G) (get_price b.product G)
  else decide (b.score < a.score)

/-- Insert into a list sorted by `le`. -/
def insertCand (le : Candidate → Candidate → Bool) (c : Candidate) :
    List Candidate → List Candidate
  | [] => [c]
  | x :: xs => if le x c then x :: insertCand le c xs else c :: x :: xs

/-- `sorted(candidates, key=...)` — line 94. -/
def sortCands (le : Candidate → Candidate → Bool) :
    List Candidate → List Candidate
  | [] => []
  | x :: xs => insertCand le x (sortCands le xs)

/-- The hard price filter `(max_price is None) or (get_price(...) <= max_price)`
of lines 52 and 82: when `max_price` is set and the node's price is absent,
Python evaluates `None <= max_price` and raises `TypeError`. -/
def pricePass (max_price : Option ℚ) (p : Option ℚ) : Except PyErr Bool :=
  match max_price with
  | none => .ok true
  | some mp =>
    match p with
    | none => .error .typeError
    | some q => .ok (decide (q ≤ mp))

/-- The hard brand filter
`(optional_brand is None) or (get_brand(...) == optional_brand)` of lines
54 and 84 (an `is None` test, not a truthiness test). -/
def brandFilterOk (optional_brand : Option String) (brand : Option String) : Bool :=
  match optional_brand with
  | none => true
  | some b => brand == some b

/-- The BFS phase of `find_alternatives` (lines 58-96): run the loop from the
requested node, then sort and truncate the candidate list.  The list is the
`candidates = []` of line 65: the append of line 88 sits behind the raising
`in_stock(nbr)` call (see `processNbrs`), so it never runs and the list
stays empty on every run that completes. -/
def bfsPhase (G : Graph) (req : String) (max_results : Nat) :
    Except PyErr QResult :=
  match bfsLoop G req ((nodeIds G).length + 1) [⟨req, 0, [req]⟩] [req] [(req, 0)] with
  | .error e => .error e
  | .ok _ =>
    .ok (.alternatives ((sortCands (candLe G) ([] : List Candidate)).take max_results))

/-- `find_alternatives(G, requested_product_id, max_price, required_tags,
optional_brand, max_results)` — lines 46-96. -/
def find_alternatives (G : Graph) (requested_product_id : String)
    (max_price : Option ℚ) (required_tags : List String)
    (optional_brand : Option String) (max_results : Nat) :
    Except PyErr QResult :=
  let rt := firstDedup required_tags
  if memG requested_product_id G then
    if is_product requested_product_id G && in_stock requested_product_id G then
      match pricePass max_price (get_price requested_product_id G) with
      | .error e => .error e
      | .ok price_ok =>
        let tags_ok := rt.all (fun t => (get_tags requested_product_id G).contains t)
        let brand_ok := brandFilterOk optional_brand (get_brand requested_product_id G)
        if price_ok && tags_ok && brand_ok then .ok (.exactMatch requested_product_id)
        else bfsPhase G requested_product_id max_results
    else bfsPhase G requested_product_id max_results
  else .ok .errorNotFound

/-! Concrete graphs used to evaluate the program at specific inputs. -/

/-- Requested product `p1` (out of stock) with an in-stock product neighbor
`p2` satisfying every hard filter. -/
def g1 : Graph :=
  { nodes := [("p1", { ptype := some "product" }),
              ("p2", { ptype := some "product", in_stock := true, price := some 80 })],
    edges := [⟨"p1", "p2", "RELATED"⟩] }

/-- Products `p1`/`p2` in distinct categories joined by a `SIMILAR_TO` edge,
and products `q1`/`q2` sharing a category with prices 100 and 150. -/
def g4 : Graph :=
  { nodes := [("p1", { ptype := some "product", category := some "c1" }),
              ("p2", { ptype := some "product", category := some "c2" }),
              ("q1", { ptype := some "product", category := some "c", price := some 100 }),
              ("q2", { ptype := some "product", category := some "c", price := some 150 })],
    edges := [⟨"c1", "c2", "SIMILAR_TO"⟩] }

/-- Requested product `p0` (out of stock) with three in-stock, equally
structured product neighbors of distinct prices. -/
def g5 : Graph :=
  { nodes := [("p0", { ptype := some "product", price := some 100 }),
              ("p1", { ptype := some "product", in_stock := true, price := some 50 }),
              ("p2", { ptype := some "product", in_stock := true, price := some 60 }),
              ("p3", { ptype := some "product", in_stock := true, price := some 70 })],
    edges := [⟨"p0", "p1", "RELATED"⟩, ⟨"p0", "p2", "RELATED"⟩, ⟨"p0", "p3", "RELATED"⟩] }

/-- A 6-node chain of attribute-less nodes: `n5` lies at hop-distance 5 from
`n0`. -/
def g6 : Graph :=
  { nodes := [("n0", {}), ("n1", {}), ("n2", {}), ("n3", {}), ("n4", {}), ("n5", {})],
    edges := [⟨"n0", "n1", "RELATED"⟩, ⟨"n1", "n2", "RELATED"⟩, ⟨"n2", "n3", "RELATED"⟩,
              ⟨"n3", "n4", "RELATED"⟩, ⟨"n4", "n5", "RELATED"⟩] }

/-- Two category nodes joined by a `SIMILAR_TO` edge. -/
def g7 : Graph :=
  { nodes := [("c1", {}), ("c2", {})], edges := [⟨"c1", "c2", "SIMILAR_TO"⟩] }

/-- A single in-stock product without a price attribute. -/
def g8 : Graph :=
  { nodes := [("p1", { ptype := some "product", in_stock := true })], edges := [] }

/-- An in-stock product satisfying a price ceiling, required tags and a brand
preference. -/
def g2 : Graph :=
  { nodes := [("p1", { ptype := some "product", in_stock := true, price := some 50,
                       brand := some "X", tags := ["fast"] })],
    edges := [] }

/-- Two product nodes with no brand attribute (and no categories). -/
def g10 : Graph :=
  { nodes := [("p1", { ptype := some "product" }), ("p2", { ptype := some "product" })],
    edges := [] }

/-! Basic lemmas about the list helpers. -/

theorem mem_firstDedupAux (a : String) :
    ∀ (l seen : List String), a ∈ firstDedupAux seen l ↔ a ∈ l ∧ a ∉ seen := by
  intro l
  induction l with
  | nil => intro seen; simp [firstDedupAux]
  | cons x xs ih =>
    intro seen
    show a ∈ (if seen.contains x then firstDedupAux seen xs
              else x :: firstDedupAux (seen ++ [x]) xs) ↔ _
    by_cases hx : x ∈ seen
    · rw [show seen.contains x = true from List.elem_eq_true_of_mem hx, if_pos rfl,
        ih seen]
      constructor
      · rintro ⟨h1, h2⟩
        exact ⟨List.mem_cons_of_mem x h1, h2⟩
      · rintro ⟨h1, h2⟩
        rcases List.mem_cons.mp h1 with rfl | h1
        · exact absurd hx h2
        · exact ⟨h1, h2⟩
    · have hc : seen.contains x = false := by
        cases hcc : seen.contains x
        · rfl
        · exact absurd (List.mem_of_elem_eq_true hcc) hx
      rw [hc, if_neg Bool.false_ne_true, List.mem_cons, ih (seen ++ [x]),
        List.mem_cons]
      constructor
      · rintro (rfl | ⟨h1, h2⟩)
        · exact ⟨Or.inl rfl, hx⟩
        · exact ⟨Or.inr h1, fun hm => h2 (List.mem_append_left _ hm)⟩
      · rintro ⟨rfl | h1, h2⟩
        · exact Or.inl rfl
        · by_cases hax : a = x
          · exact Or.inl hax
          · refine Or.inr ⟨h1, fun hm => ?_⟩
            rcases List.mem_append.mp hm with hm | hm
            · exact h2 hm
            · exact hax (List.mem_singleton.mp hm)

theorem mem_firstDedup (a : String) (l : List String) :
    a ∈ firstDedup l ↔ a ∈ l := by
  simp [firstDedup, mem_firstDedupAux]

theorem contains_eq_true_iff (l : List String) (a : String) :
    l.contains a = true ↔ a ∈ l :=
  ⟨List.mem_of_elem_eq_true, List.elem_eq_true_of_mem⟩

/-- The BFS phase never returns the not-found error value. -/
theorem bfsPhase_ne_errorNotFound (G : Graph) (req : String) (mr : Nat) :
    bfsPhase G req mr ≠ .ok .errorNotFound := by
  unfold bfsPhase
  split
  · simp
  · simp

/-- C1: the claim says every returned alternative is an in-stock product
satisfying the hard filters, and that out-of-stock products are visited
without becoming candidates.  On `g1` — requested product `p1` out of
stock, in-stock neighbor `p2` passing every filter — the query does not
return an alternatives list at all: the candidate filter of line 79 calls
`in_stock(nbr)` with one argument (the function takes `(node, G)`) and the
query aborts with `TypeError` as soon as BFS reaches any product neighbor,
in or out of stock. -/
theorem c1_filter_call_raises :
    find_alternatives g1 "p1" none [] none 3 = .error .typeError := by rfl

/-- C4: the claim says `score_candidate` always evaluates the four rules in
order and sums their contributions.  On `g4` with requested `p1` /
candidate `p2` (distinct categories joined by a `SIMILAR_TO` edge) the
category rule's `categories_are_similar` call raises `AttributeError`, so
no rule after the first is evaluated and no score is produced.  On the
non-raising pair `q1`/`q2` (shared category, prices 100 and 150, both
brands absent) the rules do fire in order and additively, with the price
rule contributing exactly `-0.5 * (150 - 100) / max 1 100 = -1/4`:
the total is `3 + 1/2 - 1/4 = 13/4` with reasons in rule order. -/
theorem c4_rule_evaluation :
    score_candidate g4 "p1" "p2" [] none = .error .attributeError ∧
    score_candidate g4 "q1" "q2" [] none =
      .ok (13/4, ["same_category", "same_brand", "more_expensive"]) := by
  refine ⟨by rfl, ?_⟩
  simp [score_candidate, categoryStep, brandStep, tagStep, priceStep,
    categories_are_similar, get_category, get_price, get_brand, get_tags,
    getProps, has_edge, pyTruthy, pyMax, g4]
  norm_num

/-- C5: the claim says returned lists are sorted by descending score then
ascending price, and that with `max_results = 1` and several equally
top-scored candidates the cheapest is returned.  On `g5` — requested `p0`
out of stock, three identically structured in-stock product neighbors with
prices 50, 60, 70, `max_results = 1` — the query returns no list: it
raises `TypeError` at the `in_stock(nbr)` arity slip of line 79 before any
candidate is created, so the sort of line 94 never runs on a non-empty
list. -/
theorem c5_ranking_scenario_raises :
    find_alternatives g5 "p0" none [] none 1 = .error .typeError := by rfl

/-- C7: the claim says `categories_are_similar` returns true exactly when a
`SIMILAR_TO` edge joins the two distinct defined categories.  On `g7`,
where the edge `c1 → c2` has type `SIMILAR_TO`, the call raises
`AttributeError` instead of returning true: the code iterates
`G.get_edge_data(a, b).values()` as if the graph were a multigraph, but on
the `DiGraph` built by `load_kg` those values are the type strings
themselves, and `.get` on a string raises.  The equal-and-defined case and
the absent-argument cases do behave as claimed. -/
theorem c7_edge_lookup_raises :
    categories_are_similar g7 (some "c1") (some "c2") = .error .attributeError ∧
    categories_are_similar g7 (some "c1") (some "c1") = .ok true ∧
    categories_are_similar g7 none none = .ok false := by
  exact ⟨rfl, rfl, rfl⟩

/-- C8: the claim says a missing price never causes an error anywhere in a
query.  On `g8` — requested product `p1` in stock with no price attribute
— a query with `max_price = 10` raises `TypeError`: line 52 evaluates
`get_price(...) <= max_price`, i.e. `None <= 10`, with no presence guard
(only the scoring rule of lines 143-156 is guarded). -/
theorem c8_missing_price_raises :
    find_alternatives g8 "p1" (some 10) [] none 3 = .error .typeError := by rfl

theorem within_succ (G : Graph) (s : String) (k : Nat) (a : String)
    (h : a ∈ within G s k) : a ∈ within G s (k + 1) := by
  simp only [within]
  rw [mem_firstDedup]
  exact List.mem_append_left _ h

theorem within_mono (G : Graph) (s : String) {k m : Nat} (h : k ≤ m) :
    ∀ a, a ∈ within G s k → a ∈ within G s m := by
  induction h with
  | refl => exact fun a ha => ha
  | step _ ih => exact fun a ha => within_succ G s _ a (ih a ha)

theorem within_step (G : Graph) (s : String) (k : Nat) (n x : String)
    (hn : n ∈ within G s k) (hx : x ∈ neighborsOf n G) :
    x ∈ within G s (k + 1) := by
  simp only [within]
  rw [mem_firstDedup]
  refine List.mem_append_right _ ?_
  exact List.mem_flatMap.mpr ⟨n, hn, hx⟩

theorem nodup_append_singleton {l : List String} {a : String}
    (h : l.Nodup) (ha : a ∉ l) : (l ++ [a]).Nodup := by
  rw [List.nodup_append]
  exact ⟨h, List.nodup_singleton a, fun x hx hx' => ha ((List.mem_singleton.mp hx') ▸ hx)⟩

/-- Invariant preservation for one pass of the neighbor loop: visited stays
duplicate-free and inside the 5-hop ball, deque appends stay
duplicate-free, inside visited, at depth at most 4 and inside the ball of
their recorded depth, and new queue items are at depth at most 4 and
inside the ball of their depth. -/
theorem processNbrs_spec (G : Graph) (req : String) (dist : Nat) (path : List String)
    (hd : dist ≤ 4) :
    ∀ (nbrs visited : List String) (acc : List QItem) (enq : List (String × Nat))
      (visited' : List String) (acc' : List QItem) (enq' : List (String × Nat)),
      (∀ x ∈ nbrs, x ∈ within G req (dist + 1)) →
      visited.Nodup →
      (∀ n ∈ visited, n ∈ within G req 5) →
      (enq.map Prod.fst).Nodup →
      (∀ x ∈ enq.map Prod.fst, x ∈ visited) →
      (∀ p ∈ enq, p.2 ≤ 4 ∧ p.1 ∈ within G req p.2) →
      (∀ q ∈ acc, q.dist ≤ 4 ∧ q.node ∈ within G req q.dist) →
      processNbrs G req dist path nbrs visited acc enq = .ok (visited', acc', enq') →
      visited'.Nodup ∧
      (∀ n ∈ visited', n ∈ within G req 5) ∧
      (enq'.map Prod.fst).Nodup ∧
      (∀ x ∈ enq'.map Prod.fst, x ∈ visited') ∧
      (∀ p ∈ enq', p.2 ≤ 4 ∧ p.1 ∈ within G req p.2) ∧
      (∀ q ∈ acc', q.dist ≤ 4 ∧ q.node ∈ within G req q.dist) := by
  intro nbrs
  induction nbrs with
  | nil =>
    intro visited acc enq visited' acc' enq' _ h2 h3 h4 h5 h6 h7 heq
    simp only [processNbrs, Except.ok.injEq, Prod.mk.injEq] at heq
    obtain ⟨rfl, rfl, rfl⟩ := heq
    exact ⟨h2, h3, h4, h5, h6, h7⟩
  | cons nbr rest ih =>
    intro visited acc enq visited' acc' enq' h1 h2 h3 h4 h5 h6 h7 heq
    rw [processNbrs] at heq
    by_cases hv : visited.contains nbr
    · rw [if_pos hv] at heq
      exact ih visited acc enq visited' acc' enq'
        (fun x hx => h1 x (List.mem_cons_of_mem _ hx)) h2 h3 h4 h5 h6 h7 heq
    · rw [if_neg hv] at heq
      have hnotmem : nbr ∉ visited := fun hm => hv (List.elem_eq_true_of_mem hm)
      have hnbr1 : nbr ∈ within G req (dist + 1) := h1 nbr (List.mem_cons_self _ _)
      have hnbr5 : nbr ∈ within G req 5 :=
        within_mono G req (by omega : dist + 1 ≤ 5) nbr hnbr1
      have hrest : ∀ x ∈ rest, x ∈ within G req (dist + 1) :=
        fun x hx => h1 x (List.mem_cons_of_mem _ hx)
      have hvis : (visited ++ [nbr]).Nodup := nodup_append_singleton h2 hnotmem
      have hvis5 : ∀ n ∈ visited ++ [nbr], n ∈ within G req 5 := by
        intro n hn
        rcases List.mem_append.mp hn with hn | hn
        · exact h3 n hn
        · exact (List.mem_singleton.mp hn) ▸ hnbr5
      have h5' : ∀ x ∈ enq.map Prod.fst, x ∈ visited ++ [nbr] :=
        fun x hx => List.mem_append_left _ (h5 x hx)
      cases hip : (is_product nbr G && nbr != req) with
      | true =>
        rw [hip, if_pos rfl] at heq
        cases heq
      | false =>
        rw [hip, if_neg Bool.false_ne_true] at heq
        by_cases hdd : dist + 1 ≤ 4
        · rw [if_pos hdd] at heq
          refine ih (visited ++ [nbr]) (acc ++ [⟨nbr, dist + 1, path ++ [nbr]⟩])
            (enq ++ [(nbr, dist + 1)]) visited' acc' enq' hrest hvis hvis5 ?_ ?_ ?_ ?_ heq
          · rw [List.map_append]
            exact nodup_append_singleton h4 (fun hm => hnotmem (h5 nbr hm))
          · intro x hx
            rw [List.map_append] at hx
            rcases List.mem_append.mp hx with hx | hx
            · exact List.mem_append_left _ (h5 x hx)
            · exact List.mem_append_right _ hx
          · intro p hp
            rcases List.mem_append.mp hp with hp | hp
            · exact h6 p hp
            · rw [List.mem_singleton.mp hp]
              exact ⟨hdd, hnbr1⟩
          · intro q hq
            rcases List.mem_append.mp hq with hq | hq
            · exact h7 q hq
            · rw [List.mem_singleton.mp hq]
              exact ⟨hdd, hnbr1⟩
        · rw [if_neg hdd] at heq
          exact ih (visited ++ [nbr]) acc enq visited' acc' enq'
            hrest hvis hvis5 h4 h5' h6 h7 heq

/-- Invariant preservation for the whole BFS loop. -/
theorem bfsLoop_spec (G : Graph) (req : String) :
    ∀ (fuel : Nat) (queue : List QItem) (visited : List String)
      (enq : List (String × Nat)) (v : List String) (e : List (String × Nat)),
      (∀ q ∈ queue, q.dist ≤ 4 ∧ q.node ∈ within G req q.dist) →
      visited.Nodup →
      (∀ n ∈ visited, n ∈ within G req 5) →
      (enq.map Prod.fst).Nodup →
      (∀ x ∈ enq.map Prod.fst, x ∈ visited) →
      (∀ p ∈ enq, p.2 ≤ 4 ∧ p.1 ∈ within G req p.2) →
      bfsLoop G req fuel queue visited enq = .ok (v, e) →
      v.Nodup ∧
      (e.map Prod.fst).Nodup ∧
      (∀ p ∈ e, p.2 ≤ 4 ∧ p.1 ∈ within G req p.2) ∧
      (∀ n ∈ v, n ∈ within G req 5) := by
  intro fuel
  induction fuel with
  | zero =>
    intro queue visited enq v e h1 h2 h3 h4 h5 h6 heq
    cases queue with
    | nil =>
      simp only [bfsLoop, Except.ok.injEq, Prod.mk.injEq] at heq
      obtain ⟨rfl, rfl⟩ := heq
      exact ⟨h2, h4, h6, h3⟩
    | cons item rest => simp [bfsLoop] at heq
  | succ fuel ih =>
    intro queue visited enq v e h1 h2 h3 h4 h5 h6 heq
    cases queue with
    | nil =>
      simp only [bfsLoop, Except.ok.injEq, Prod.mk.injEq] at heq
      obtain ⟨rfl, rfl⟩ := heq
      exact ⟨h2, h4, h6, h3⟩
    | cons item rest =>
      rw [bfsLoop] at heq
      cases hp : processNbrs G req item.dist item.path (neighborsOf item.node G)
          visited [] enq with
      | error err => rw [hp] at heq; cases heq
      | ok res =>
        obtain ⟨visited1, acc1, enq1⟩ := res
        rw [hp] at heq
        have hitem := h1 item (List.mem_cons_self _ _)
        have hnb : ∀ x ∈ neighborsOf item.node G, x ∈ within G req (item.dist + 1) :=
          fun x hx => within_step G req item.dist item.node x hitem.2 hx
        obtain ⟨s1, s2, s3, s4, s5, s6⟩ :=
          processNbrs_spec G req item.dist item.path hitem.1 _ visited [] enq
            visited1 acc1 enq1 hnb h2 h3 h4 h5 h6 (by simp) hp
        refine ih (rest ++ acc1) visited1 enq1 v e ?_ s1 s2 s3 s4 s5 heq
        intro q hq
        rcases List.mem_append.mp hq with hq | hq
        · exact h1 q (List.mem_cons_of_mem _ hq)
        · exact s6 q hq

/-- C6 (amended): during a single traversal no node is visited more than
once (the final visited set is duplicate-free), no node is enqueued more
than once, every enqueued node has recorded depth at most 4 and lies
within that many hops of the requested node (nodes beyond depth 4 are
never enqueued), and every visited node lies within 5 hops of the
requested node — depth-5 nodes can be visited, but never enqueued. -/
theorem c6_traversal_invariants (G : Graph) (req : String) (fuel : Nat)
    (v : List String) (e : List (String × Nat))
    (h : bfsLoop G req fuel [⟨req, 0, [req]⟩] [req] [(req, 0)] = .ok (v, e)) :
    v.Nodup ∧
    (e.map Prod.fst).Nodup ∧
    (∀ p ∈ e, p.2 ≤ 4 ∧ p.1 ∈ within G req p.2) ∧
    (∀ n ∈ v, n ∈ within G req 5) := by
  have hreq0 : req ∈ within G req 0 := List.mem_singleton.mpr rfl
  refine bfsLoop_spec G req fuel _ _ _ v e ?_ ?_ ?_ ?_ ?_ ?_ h
  · intro q hq
    rw [List.mem_singleton.mp hq]
    exact ⟨by simp, hreq0⟩
  · exact List.nodup_singleton req
  · intro n hn
    rw [List.mem_singleton.mp hn]
    exact within_mono G req (by omega) req hreq0
  · simp
  · intro x hx
    simp only [List.map_cons, List.map_nil] at hx
    rw [List.mem_singleton.mp hx]
    exact List.mem_singleton.mpr rfl
  · intro p hp
    rw [List.mem_singleton.mp hp]
    exact ⟨by simp, hreq0⟩

/-- Witness for C6 (amended): the completed run on the 6-chain `g6`
instantiates the invariants. -/
theorem c6_traversal_invariants_witness :
    bfsLoop g6 "n0" 17 [⟨"n0", 0, ["n0"]⟩] ["n0"] [("n0", 0)] =
      .ok (["n0", "n1", "n2", "n3", "n4", "n5"],
           [("n0", 0), ("n1", 1), ("n2", 2), ("n3", 3), ("n4", 4)]) ∧
    (["n0", "n1", "n2", "n3", "n4", "n5"] : List String).Nodup := by
  have h : bfsLoop g6 "n0" 17 [⟨"n0", 0, ["n0"]⟩] ["n0"] [("n0", 0)] =
      .ok (["n0", "n1", "n2", "n3", "n4", "n5"],
           [("n0", 0), ("n1", 1), ("n2", 2), ("n3", 3), ("n4", 4)]) := by rfl
  exact ⟨h, (c6_traversal_invariants g6 "n0" 17 _ _ h).1⟩

/-- C2: when the requested id is present and its node is an in-stock product
that meets the price ceiling (with a present price when the ceiling is
set), carries all required tags, and matches the brand preference when one
is set, `find_alternatives` returns the exact-match result carrying
exactly the requested id — the short-circuit of lines 51-56 fires before
the BFS phase, and the returned record carries no alternatives list. -/
theorem c2_exact_match_short_circuit (G : Graph) (id : String) (mp : Option ℚ)
    (rt : List String) (ob : Option String) (mr : Nat)
    (hmem : memG id G = true)
    (hprod : is_product id G = true)
    (hstock : in_stock id G = true)
    (hprice : mp = none ∨ ∃ p m, get_price id G = some p ∧ mp = some m ∧ p ≤ m)
    (htags : ∀ t ∈ rt, t ∈ get_tags id G)
    (hbrand : ob = none ∨ get_brand id G = ob) :
    find_alternatives G id mp rt ob mr = .ok (.exactMatch id) := by
  have hpp : pricePass mp (get_price id G) = .ok true := by
    rcases hprice with rfl | ⟨p, m, hp, rfl, hpm⟩
    · rfl
    · simp [pricePass, hp, hpm]
  have htags' : (firstDedup rt).all (fun t => (get_tags id G).contains t) = true := by
    rw [List.all_eq_true]
    intro t ht
    exact (contains_eq_true_iff _ _).mpr (htags t ((mem_firstDedup t rt).mp ht))
  have hbrand' : brandFilterOk ob (get_brand id G) = true := by
    rcases hbrand with rfl | hb
    · rfl
    · cases ob with
      | none => rfl
      | some b => simp [brandFilterOk, hb]
  simp only [find_alternatives, hmem, if_true, hprod, hstock, Bool.and_self, hpp,
    htags', hbrand']

/-- Witness for C2: on `g2` the in-stock product `p1` (price 50, brand `X`,
tag `fast`) satisfies all constraints of the query and is returned as the
exact match. -/
theorem c2_exact_match_short_circuit_witness :
    memG "p1" g2 = true ∧
    find_alternatives g2 "p1" (some 100) ["fast"] (some "X") 3 =
      .ok (.exactMatch "p1") := by
  refine ⟨rfl, c2_exact_match_short_circuit g2 "p1" (some 100) ["fast"] (some "X") 3
    rfl rfl rfl (Or.inr ⟨50, 100, rfl, rfl, by norm_num⟩) (by decide) (Or.inr rfl)⟩

/-- C3: `find_alternatives` returns the value
`{"error": "Requested product not found in KG."}` exactly when the
requested id is absent from the graph; the error value is a bare
constructor carrying no exact match and no alternatives list. -/
theorem c3_not_found_iff_absent (G : Graph) (id : String) (mp : Option ℚ)
    (rt : List String) (ob : Option String) (mr : Nat) :
    find_alternatives G id mp rt ob mr = .ok .errorNotFound ↔ memG id G = false := by
  cases hm : memG id G with
  | false => simp [find_alternatives, hm]
  | true =>
    simp only [find_alternatives, hm, if_true]
    constructor
    · intro h
      exfalso
      revert h
      split
      · split
        · simp
        · split
          · simp
          · exact bfsPhase_ne_errorNotFound G id mr
      · exact bfsPhase_ne_errorNotFound G id mr
    · intro h
      exact absurd h (by simp)

/-- C10: with no brand preference set and both the requested and the
candidate node lacking a brand attribute, the brand rule of
`score_candidate` compares `None == None`, which holds, so it adds `+0.5`
and appends the `same_brand` reason; consequently every successful
`score_candidate` call on such a pair reports `same_brand`. -/
theorem c10_absent_brands_match (G : Graph) (req cand : String)
    (_hq : memG req G = true) (_hc : memG cand G = true)
    (hreq : get_brand req G = none) (hcand : get_brand cand G = none) :
    brandStep G req cand none = (1/2, ["same_brand"]) ∧
    ∀ rt s rs, score_candidate G req cand rt none = .ok (s, rs) →
      "same_brand" ∈ rs := by
  have hb : brandStep G req cand none = (1/2, ["same_brand"]) := by
    simp [brandStep, pyTruthy, hreq, hcand]
  refine ⟨hb, ?_⟩
  intro rt s rs h
  rw [score_candidate] at h
  revert h
  split
  · intro h; exact absurd h (by simp)
  · intro h
    rw [hb] at h
    simp only [Except.ok.injEq, Prod.mk.injEq] at h
    rw [← h.2]
    simp

/-- Witness for C10: the brand-less products of `g10`. -/
theorem c10_absent_brands_match_witness :
    brandStep g10 "p1" "p2" none = (1/2, ["same_brand"]) :=
  (c10_absent_brands_match g10 "p1" "p2" rfl rfl rfl rfl).1

/-- C6 (counterexample): the claim says no visited node lies at hop-distance
greater than 4 from the requested node.  On the 6-chain `g6` the query
completes, and the traversal visits `n5` — neighbors of a depth-4 node are
added to the visited set before the depth guard, which only stops them
from being enqueued — yet `n5` is not within 4 hops of `n0` (it is not in
the 4-step neighborhood closure `within g6 "n0" 4`). -/
theorem c6_depth_five_node_visited :
    find_alternatives g6 "n0" none [] none 3 = .ok (.alternatives []) ∧
    bfsLoop g6 "n0" 17 [⟨"n0", 0, ["n0"]⟩] ["n0"] [("n0", 0)] =
      .ok (["n0", "n1", "n2", "n3", "n4", "n5"],
           [("n0", 0), ("n1", 1), ("n2", 2), ("n3", 3), ("n4", 4)]) ∧
    "n5" ∈ ["n0", "n1", "n2", "n3", "n4", "n5"] ∧
    "n5" ∉ within g6 "n0" 4 := by
  refine ⟨rfl, rfl, by decide, by decide⟩

/-! State-passing rendering of the query pipeline, used to state the frame
property: every graph access takes the current snapshot and returns it
alongside its result, and the snapshot a query hands back equals the one
it received — no operation writes to the graph. -/

def is_productS (n : String) (G : Graph) : Bool × Graph := (is_product n G, G)

def get_priceS (n : String) (G : Graph) : Option ℚ × Graph := (get_price n G, G)

def get_brandS (n : String) (G : Graph) : Option String × Graph := (get_brand n G, G)

def get_tagsS (n : String) (G : Graph) : List String × Graph := (get_tags n G, G)

def get_categoryS (n : String) (G : Graph) : Option String × Graph := (get_category n G, G)

def in_stockS (n : String) (G : Graph) : Bool × Graph := (in_stock n G, G)

def has_edgeS (a b : String) (G : Graph) : Bool × Graph := (has_edge a b G, G)

def memGS (n : String) (G : Graph) : Bool × Graph := (memG n G, G)

def successorsS (n : String) (G : Graph) : List String × Graph := (successors n G, G)

def predecessorsS (n : String) (G : Graph) : List String × Graph := (predecessors n G, G)

def nodeIdsS (G : Graph) : List String × Graph := (nodeIds G, G)

/-- `categories_are_similar` with the snapshot threaded through each edge
lookup. -/
def categories_are_similarS (G0 : Graph) (cat_a cat_b : Option String) :
    Except PyErr Bool × Graph :=
  match cat_a, cat_b with
  | some a, some b =>
    if a == "" || b == "" then (.ok false, G0)
    else if a == b then (.ok true, G0)
    else
      let p1 := has_edgeS a b G0
      if p1.1 then (.error .attributeError, p1.2)
      else
        let p2 := has_edgeS b a p1.2
        if p2.1 then (.error .attributeError, p2.2)
        else (.ok false, p2.2)
  | _, _ => (.ok false, G0)

def categoryStepS (G0 : Graph) (requested candidate : String) :
    Except PyErr (ℚ × List String) × Graph :=
  let c1 := get_categoryS requested G0
  let c2 := get_categoryS candidate c1.2
  if pyTruthy c1.1 && pyTruthy c2.1 && c1.1 == c2.1 then
    (.ok (3, ["same_category"]), c2.2)
  else
    let r := categories_are_similarS c2.2 c1.1 c2.1
    match r.1 with
    | .error e => (.error e, r.2)
    | .ok true => (.ok (3/2, ["related_category"]), r.2)
    | .ok false => (.ok (0, []), r.2)

def brandStepS (G0 : Graph) (requested candidate : String)
    (optional_brand : Option String) : (ℚ × List String) × Graph :=
  if pyTruthy optional_brand then
    let b := get_brandS candidate G0
    if b.1 == optional_brand then ((1, ["brand_match"]), b.2)
    else ((0, ["different_brand"]), b.2)
  else
    let bc := get_brandS candidate G0
    let br := get_brandS requested bc.2
    if bc.1 == br.1 then (((1 : ℚ)/2, ["same_brand"]), br.2)
    else ((0, []), br.2)

def tagStepS (G0 : Graph) (candidate : String) (required_tags : List String) :
    (ℚ × List String) × Graph :=
  let ct := get_tagsS candidate G0
  let matched := required_tags.filter (fun t => ct.1.contains t)
  (if required_tags.isEmpty then (0, [])
   else if required_tags.all (fun t => ct.1.contains t) then
     (2, ["all_required_tags_matched"])
   else
     ((1/2) * (matched.length : ℚ),
       [String.append "missing_tags:" (String.intercalate ","
         (sortStrings (required_tags.filter (fun t => !(ct.1.contains t)))))]),
   ct.2)

def priceStepS (G0 : Graph) (requested candidate : String) :
    (ℚ × List String) × Graph :=
  let pr := get_priceS requested G0
  let pc := get_priceS candidate pr.2
  (match pr.1, pc.1 with
   | some rp, some cp =>
     if cp ≤ rp then ((1 : ℚ), ["cheaper_or_equal_price"])
     else (-((1/2) * ((cp - rp) / pyMax 1 rp)), ["more_expensive"])
   | _, _ => ((0 : ℚ), []),
   pc.2)

def score_candidateS (G0 : Graph) (requested candidate : String)
    (required_tags : List String) (optional_brand : Option String) :
    Except PyErr (ℚ × List String) × Graph :=
  let s1 := categoryStepS G0 requested candidate
  match s1.1 with
  | .error e => (.error e, s1.2)
  | .ok (sc1, r1) =>
    let s2 := brandStepS s1.2 requested candidate optional_brand
    let s3 := tagStepS s2.2 candidate required_tags
    let s4 := priceStepS s3.2 requested candidate
    (.ok (sc1 + s2.1.1 + s3.1.1 + s4.1.1, r1 ++ s2.1.2 ++ s3.1.2 ++ s4.1.2), s4.2)

def processNbrsS (req : String) (dist : Nat) (path : List String) :
    List String → List String → List QItem → Graph →
    (Except PyErr (List String × List QItem)) × Graph
  | [], visited, acc, G0 => (.ok (visited, acc), G0)
  | nbr :: rest, visited, acc, G0 =>
    if visited.contains nbr then processNbrsS req dist path rest visited acc G0
    else
      let p := is_productS nbr G0
      if p.1 && nbr != req then (.error .typeError, p.2)
      else if dist + 1 ≤ 4 then
        processNbrsS req dist path rest (visited ++ [nbr])
          (acc ++ [⟨nbr, dist + 1, path ++ [nbr]⟩]) p.2
      else processNbrsS req dist path rest (visited ++ [nbr]) acc p.2

def bfsLoopS (req : String) :
    Nat → List QItem → List String → Graph →
    (Except PyErr (List String)) × Graph
  | _, [], visited, G0 => (.ok visited, G0)
  | 0, _ :: _, _, G0 => (.error .internalFuel, G0)
  | fuel + 1, item :: rest, visited, G0 =>
    let ns := successorsS item.node G0
    let ps := predecessorsS item.node ns.2
    let pr := processNbrsS req item.dist item.path (ns.1 ++ ps.1) visited [] ps.2
    match pr.1 with
    | .error e => (.error e, pr.2)
    | .ok (visited', newItems) => bfsLoopS req fuel (rest ++ newItems) visited' pr.2

def bfsPhaseS (G0 : Graph) (req : String) (max_results : Nat) :
    (Except PyErr QResult) × Graph :=
  let ids := nodeIdsS G0
  let bl := bfsLoopS req (ids.1.length + 1) [⟨req, 0, [req]⟩] [req] ids.2
  match bl.1 with
  | .error e => (.error e, bl.2)
  | .ok _ =>
    (.ok (.alternatives ((sortCands (candLe bl.2) ([] : List Candidate)).take max_results)),
     bl.2)

def find_alternativesS (G0 : Graph) (requested_product_id : String)
    (max_price : Option ℚ) (required_tags : List String)
    (optional_brand : Option String) (max_results : Nat) :
    (Except PyErr QResult) × Graph :=
  let rt := firstDedup required_tags
  let m := memGS requested_product_id G0
  if m.1 then
    let ip := is_productS requested_product_id m.2
    let st := in_stockS requested_product_id ip.2
    if ip.1 && st.1 then
      let pr := get_priceS requested_product_id st.2
      match pricePass max_price pr.1 with
      | .error e => (.error e, pr.2)
      | .ok price_ok =>
        let tg := get_tagsS requested_product_id pr.2
        let tags_ok := rt.all (fun t => tg.1.contains t)
        let br := get_brandS requested_product_id tg.2
        let brand_ok := brandFilterOk optional_brand br.1
        if price_ok && tags_ok && brand_ok then
          (.ok (.exactMatch requested_product_id), br.2)
        else bfsPhaseS br.2 requested_product_id max_results
    else bfsPhaseS st.2 requested_product_id max_results
  else (.ok .errorNotFound, m.2)

theorem categories_are_similarS_snd (G : Graph) (a b : Option String) :
    (categories_are_similarS G a b).2 = G := by
  rcases a with _ | a <;> rcases b with _ | b
  · rfl
  · rfl
  · rfl
  · simp only [categories_are_similarS, has_edgeS]
    split_ifs <;> rfl

theorem categoryStepS_snd (G : Graph) (r c : String) :
    (categoryStepS G r c).2 = G := by
  simp only [categoryStepS, get_categoryS]
  split
  · rfl
  · split <;> exact categories_are_similarS_snd _ _ _

theorem brandStepS_snd (G : Graph) (r c : String) (ob : Option String) :
    (brandStepS G r c ob).2 = G := by
  simp only [brandStepS, get_brandS]
  split_ifs <;> rfl

theorem tagStepS_snd (G : Graph) (c : String) (rt : List String) :
    (tagStepS G c rt).2 = G := rfl

theorem priceStepS_snd (G : Graph) (r c : String) :
    (priceStepS G r c).2 = G := rfl

theorem score_candidateS_snd (G : Graph) (r c : String) (rt : List String)
    (ob : Option String) : (score_candidateS G r c rt ob).2 = G := by
  simp only [score_candidateS]
  split
  · exact categoryStepS_snd G r c
  · rw [priceStepS_snd, tagStepS_snd, brandStepS_snd, categoryStepS_snd]

theorem processNbrsS_snd (req : String) (dist : Nat) (path : List String) :
    ∀ (nbrs visited : List String) (acc : List QItem) (G0 : Graph),
      (processNbrsS req dist path nbrs visited acc G0).2 = G0 := by
  intro nbrs
  induction nbrs with
  | nil => intro v a G0; rfl
  | cons nbr rest ih =>
    intro v a G0
    simp only [processNbrsS, is_productS]
    split_ifs <;> first | rfl | apply ih

theorem bfsLoopS_snd (req : String) :
    ∀ (fuel : Nat) (queue : List QItem) (visited : List String) (G0 : Graph),
      (bfsLoopS req fuel queue visited G0).2 = G0 := by
  intro fuel
  induction fuel with
  | zero =>
    intro queue visited G0
    cases queue with
    | nil => rfl
    | cons i r => rfl
  | succ fuel ih =>
    intro queue visited G0
    cases queue with
    | nil => rfl
    | cons item rest =>
      simp only [bfsLoopS, successorsS, predecessorsS]
      rcases hq : processNbrsS req item.dist item.path
          (successors item.node G0 ++ predecessors item.node G0) visited [] G0
        with ⟨r, G1⟩
      have hG1 : G1 = G0 := by
        have h := processNbrsS_snd req item.dist item.path
          (successors item.node G0 ++ predecessors item.node G0) visited [] G0
        rw [hq] at h
        exact h
      cases r with
      | error e => exact hG1
      | ok res =>
        obtain ⟨visited', newItems⟩ := res
        rw [ih (rest ++ newItems) visited' G1]
        exact hG1

theorem bfsPhaseS_snd (G : Graph) (req : String) (mr : Nat) :
    (bfsPhaseS G req mr).2 = G := by
  simp only [bfsPhaseS, nodeIdsS]
  split <;> exact bfsLoopS_snd req _ _ _ _

theorem find_alternativesS_snd (G : Graph) (id : String) (mp : Option ℚ)
    (rt : List String) (ob : Option String) (mr : Nat) :
    (find_alternativesS G id mp rt ob mr).2 = G := by
  simp only [find_alternativesS, memGS, is_productS, in_stockS, get_priceS,
    get_tagsS, get_brandS]
  split_ifs <;> first
    | rfl
    | (split <;> first | rfl | apply bfsPhaseS_snd | split_ifs <;>
        first | rfl | apply bfsPhaseS_snd)
    | apply bfsPhaseS_snd

/-- C9: a query leaves the graph snapshot unchanged.  In the state-passing
rendering — where every graph access of `find_alternatives`,
`score_candidate` and `categories_are_similar` takes the current snapshot
and hands it on — the snapshot returned at the end of the call equals the
snapshot passed in: every node, attribute and typed edge is as before,
since every operation the query performs is a read. -/
theorem c9_query_graph_unchanged (G : Graph) (id : String) (mp : Option ℚ)
    (rt : List String) (ob : Option String) (mr : Nat)
    (req cand : String) (rt2 : List String) (ob2 : Option String)
    (ca cb : Option String) :
    (find_alternativesS G id mp rt ob mr).2 = G ∧
    (score_candidateS G req cand rt2 ob2).2 = G ∧
    (categories_are_similarS G ca cb).2 = G :=
  ⟨find_alternativesS_snd G id mp rt ob mr,
   score_candidateS_snd G req cand rt2 ob2,
   categories_are_similarS_snd G ca cb⟩

end Subst
